import Mathlib

/-!
# Student roster manager: repository, service and controller layers

A shallow embedding of `src/main.cpp`.

* `Student` is the value class of the source (`Name`, `Age`).
* The private member `_classes` of `StudentRepository`, a
  `std::unordered_map<std::string, std::vector<Student>>`, is an association
  list with first-match lookup.  The three map primitives the source uses are
  `umap_find` (`find(k) == end()`), `umap_subscript` (the insertion performed by
  `operator[]` on a missing key) and `umap_assign` (a write through the
  reference `operator[]` returns).
* `std::vector<Student>` is `List Student`; `push_back`, `erase` and
  `std::remove_if` are modelled on lists, `remove_if` by the usual
  compaction loop.
* Output to `std::cout` is returned next to the new state, as the characters
  written: the operands of the `<<` insertions one after another.
* A returned pointer is `Option` of the pointee, `nullptr` being `none`.
-/

namespace Roster

/-! ## Data model -/

/-- The class `Student` of the source: a name and an age.  The age is only
stored and copied, never computed with, so the `int` is left unbounded. -/
structure Student where
  Name : String
  Age : Int
deriving DecidableEq, Repr

/-- The type of the member `_classes`: class label to ordered roster. -/
abbrev ClassMap := List (String × List Student)

/-- Lookup `m.find(key)`: the mapped roster, `none` standing for `end()`. -/
def umap_find : ClassMap → String → Option (List Student)
  | [], _ => none
  | (k, v) :: rest, key => if k = key then some v else umap_find rest key

/-- The insertion done by `m[key]`: a missing key gets a default-constructed
(empty) vector, a present key leaves the map as it is.  Where the new entry
sits is not observable, the source never iterates over the map. -/
def umap_subscript (m : ClassMap) (key : String) : ClassMap :=
  match umap_find m key with
  | some _ => m
  | none => m ++ [(key, [])]

/-- Reading through the reference returned by `m[key]`. -/
def umap_deref (m : ClassMap) (key : String) : List Student :=
  (umap_find m key).getD []

/-- Writing through the reference returned by `m[key]`: the roster stored
under `key` is replaced, every other entry is kept. -/
def umap_assign : ClassMap → String → List Student → ClassMap
  | [], _, _ => []
  | (k, v) :: rest, key, nv =>
    if k = key then (k, nv) :: rest else (k, v) :: umap_assign rest key nv

/-- The labels that have an entry, in stored order. -/
def umap_keys (m : ClassMap) : List String := m.map Prod.fst

/-! ## Vector algorithms -/

/-- Index returned by `std::find_if`: position of the first element that
satisfies `pred`, the length (`last`) when there is none. -/
def find_if (pred : Student → Bool) : List Student → Nat
  | [] => 0
  | x :: xs => if pred x then 0 else find_if pred xs + 1

/-- The compaction loop of `std::remove_if`:
`for (i = first; ++i != last;) if (!p(*i)) *first++ = std::move(*i);`
with `k` the number of iterations left (`last - i`).  A move is modelled as a
copy: a moved-from slot is never read again. -/
def remove_if_loop (pred : Student → Bool) :
    Nat → List Student → Nat → Nat → List Student × Nat
  | 0, buf, _, first => (buf, first)
  | k + 1, buf, i, first =>
    match buf[i]? with
    | none => (buf, first)
    | some x =>
      if !pred x then remove_if_loop pred k (buf.set first x) (i + 1) (first + 1)
      else remove_if_loop pred k buf (i + 1) first

/-- Algorithm `std::remove_if(v.begin(), v.end(), pred)`: returns the
rearranged vector and the index of the returned iterator. -/
def remove_if (v : List Student) (pred : Student → Bool) : List Student × Nat :=
  let first := find_if pred v
  if first != v.length then
    remove_if_loop pred (v.length - (first + 1)) v (first + 1) first
  else (v, first)

/-- Range erase `v.erase(v.begin() + first, v.begin() + last)`. -/
def vector_erase (v : List Student) (first last : Nat) : List Student :=
  v.take first ++ v.drop last

/-! ## Output written to `std::cout` -/

/-- What a method writes to `std::cout`: the characters of its `<<` operands,
one operand after another.  A method that prints nothing yields `""`. -/
abbrev Stdout := String

/-- Statement `std::cout << className << " class is not found in the system.\n";` -/
def classNotFoundLine (className : String) : Stdout :=
  className ++ " class is not found in the system.\n"

/-- Statement `std::cout << studentName << " removed from " << className << ".\n";` -/
def removedLine (studentName className : String) : Stdout :=
  studentName ++ " removed from " ++ className ++ ".\n"

/-- Statement `std::cout << studentName << " not found in " << className << ".\n";` -/
def studentNotFoundLine (studentName className : String) : Stdout :=
  studentName ++ " not found in " ++ className ++ ".\n"

/-- Number of occurrences of the letter `r` in a text. -/
def countR (text : String) : Nat := text.data.count 'r'

/-! ## `StudentRepository` -/

/-- The class `StudentRepository`: its only state is `_classes`. -/
structure StudentRepository where
  _classes : ClassMap
deriving DecidableEq, Repr

namespace StudentRepository

/-- A freshly constructed repository: the map is empty. -/
def empty : StudentRepository := ⟨[]⟩

/-- Method `AddStudent`: `_classes[className].push_back(student);` -/
def AddStudent (self : StudentRepository) (className : String) (student : Student) :
    StudentRepository :=
  let classes := umap_subscript self._classes className
  ⟨umap_assign classes className (umap_deref classes className ++ [student])⟩

/-- Method `RemoveStudent`: returns the new state and what is printed. -/
def RemoveStudent (self : StudentRepository) (className studentName : String) :
    StudentRepository × Stdout :=
  if (umap_find self._classes className).isNone then
    (self, classNotFoundLine className)
  else
    let classes := umap_subscript self._classes className
    let students := umap_deref classes className
    let r := remove_if students (fun s => s.Name == studentName)
    if r.2 != r.1.length then
      (⟨umap_assign classes className (vector_erase r.1 r.2 r.1.length)⟩,
        removedLine studentName className)
    else
      (⟨umap_assign classes className r.1⟩, studentNotFoundLine studentName className)

/-- The range-for loop of `GetStudentByNameAndClass`: the first student in
stored order whose name is `studentName`. -/
def scanByName (studentName : String) : List Student → Option Student
  | [] => none
  | student :: rest =>
    if student.Name == studentName then some student else scanByName studentName rest

/-- Method `GetStudentByNameAndClass`: returns the state after the call, the
pointer result and what is printed. -/
def GetStudentByNameAndClass (self : StudentRepository) (className studentName : String) :
    StudentRepository × Option Student × Stdout :=
  if (umap_find self._classes className).isNone then
    (self, none, classNotFoundLine className)
  else
    let classes := umap_subscript self._classes className
    let students := umap_deref classes className
    match scanByName studentName students with
    | some student => (⟨classes⟩, some student, "")
    | none => (⟨classes⟩, none, studentNotFoundLine studentName className)

/-- Method `GetAllStudentsByClass`: returns the state after the call, the
pointer result and what is printed. -/
def GetAllStudentsByClass (self : StudentRepository) (className : String) :
    StudentRepository × Option (List Student) × Stdout :=
  if (umap_find self._classes className).isNone then
    (self, none, classNotFoundLine className)
  else
    let classes := umap_subscript self._classes className
    (⟨classes⟩, some (umap_deref classes className), "")

end StudentRepository

/-! ## `StudentService` and `StudentController` -/

/-- The class `StudentService`: holds the repository it was constructed with. -/
structure StudentService where
  _repository : StudentRepository
deriving DecidableEq, Repr

namespace StudentService

/-- Method `AddStudentToClass`: `_repository->AddStudent(className, student);` -/
def AddStudentToClass (self : StudentService) (className : String) (student : Student) :
    StudentService :=
  ⟨self._repository.AddStudent className student⟩

/-- Method `RemoveStudentFromClass`:
`_repository->RemoveStudent(className, studentName);` -/
def RemoveStudentFromClass (self : StudentService) (className studentName : String) :
    StudentService × Stdout :=
  let r := self._repository.RemoveStudent className studentName
  (⟨r.1⟩, r.2)

/-- Method `ViewStudentDetails`:
`return _repository->GetStudentByNameAndClass(className, studentName);` -/
def ViewStudentDetails (self : StudentService) (className studentName : String) :
    StudentService × Option Student × Stdout :=
  let r := self._repository.GetStudentByNameAndClass className studentName
  (⟨r.1⟩, r.2.1, r.2.2)

/-- Method `ViewStudentsInClass`:
`return _repository->GetAllStudentsByClass(className);` -/
def ViewStudentsInClass (self : StudentService) (className : String) :
    StudentService × Option (List Student) × Stdout :=
  let r := self._repository.GetAllStudentsByClass className
  (⟨r.1⟩, r.2.1, r.2.2)

end StudentService

/-- The class `StudentController`: holds the service it was constructed with. -/
structure StudentController where
  _service : StudentService
deriving DecidableEq, Repr

namespace StudentController

/-- Method `AddStudent`: `_service->AddStudentToClass(className, student);` -/
def AddStudent (self : StudentController) (className : String) (student : Student) :
    StudentController :=
  ⟨self._service.AddStudentToClass className student⟩

/-- Method `RemoveStudent`:
`_service->RemoveStudentFromClass(className, studentName);` -/
def RemoveStudent (self : StudentController) (className studentName : String) :
    StudentController × Stdout :=
  let r := self._service.RemoveStudentFromClass className studentName
  (⟨r.1⟩, r.2)

/-- Method `GetStudentsByClass`: `return _service->ViewStudentsInClass(className);` -/
def GetStudentsByClass (self : StudentController) (className : String) :
    StudentController × Option (List Student) × Stdout :=
  let r := self._service.ViewStudentsInClass className
  (⟨r.1⟩, r.2.1, r.2.2)

/-- Method `GetStudentDetails`:
`return _service->ViewStudentDetails(className, studentName);` -/
def GetStudentDetails (self : StudentController) (className studentName : String) :
    StudentController × Option Student × Stdout :=
  let r := self._service.ViewStudentDetails className studentName
  (⟨r.1⟩, r.2.1, r.2.2)

end StudentController

/-- The wiring of `main`: a repository inside a service inside a controller. -/
def wire (repository : StudentRepository) : StudentController := ⟨⟨repository⟩⟩


/-! ## Call sequences and sample data -/

namespace StudentRepository

/-- Successive calls `AddStudent(className, s)`, one per student of the list,
in list order. -/
def addAll (self : StudentRepository) (className : String) (students : List Student) :
    StudentRepository :=
  students.foldl (fun r s => r.AddStudent className s) self

/-- Successive calls `RemoveStudent(className, n)`, one per name of the list,
in list order; the printed lines are dropped. -/
def removeAll (self : StudentRepository) (className : String) (names : List String) :
    StudentRepository :=
  names.foldl (fun r n => (r.RemoveStudent className n).1) self

end StudentRepository

/-- The roster `[("Alice",10),("Bob",11),("Alice",12)]`. -/
def aliceBobAlice : List Student := [⟨"Alice", 10⟩, ⟨"Bob", 11⟩, ⟨"Alice", 12⟩]

/-- The repository after `Add("A1","Alice",10); Add("A1","Bob",11);
Add("A1","Alice",12)` on a fresh one. -/
def repoA1 : StudentRepository :=
  ((StudentRepository.empty.AddStudent "A1" ⟨"Alice", 10⟩).AddStudent "A1" ⟨"Bob", 11⟩).AddStudent
    "A1" ⟨"Alice", 12⟩

/-- The repository after `AddStudent("B2","Cara",9)` on a fresh one. -/
def repoB2 : StudentRepository := StudentRepository.empty.AddStudent "B2" ⟨"Cara", 9⟩

/-- The repository after `AddStudent("the system","Bob",11)` on a fresh one. -/
def repoSystem : StudentRepository :=
  StudentRepository.empty.AddStudent "the system" ⟨"Bob", 11⟩

/-- The repository after `AddStudent("Z9","Bob",11)` on a fresh one. -/
def repoZ9 : StudentRepository := StudentRepository.empty.AddStudent "Z9" ⟨"Bob", 11⟩

/-! ## Lemmas on the map primitives -/

theorem umap_find_isSome_iff_mem_keys (m : ClassMap) (key : String) :
    (umap_find m key).isSome = true ↔ key ∈ umap_keys m := by
  induction m with
  | nil => simp [umap_find, umap_keys]
  | cons e rest ih =>
    obtain ⟨k, v⟩ := e
    by_cases h : k = key
    · simp [umap_find, umap_keys, h]
    · have h2 : ¬ key = k := fun e => h e.symm
      simpa [umap_find, umap_keys, h, h2] using ih

theorem umap_subscript_of_some {m : ClassMap} {key : String} {v : List Student}
    (h : umap_find m key = some v) : umap_subscript m key = m := by
  simp [umap_subscript, h]

theorem umap_subscript_of_none {m : ClassMap} {key : String}
    (h : umap_find m key = none) : umap_subscript m key = m ++ [(key, [])] := by
  simp [umap_subscript, h]

theorem umap_find_append (m : ClassMap) (k key : String) (v : List Student) :
    umap_find (m ++ [(k, v)]) key =
      match umap_find m key with
      | some w => some w
      | none => if k = key then some v else none := by
  induction m with
  | nil => simp [umap_find]
  | cons e rest ih =>
    obtain ⟨k2, v2⟩ := e
    by_cases h : k2 = key
    · simp [umap_find, h]
    · simpa [umap_find, h] using ih

theorem umap_find_assign_same {m : ClassMap} {key : String} (nv : List Student)
    (h : (umap_find m key).isSome = true) :
    umap_find (umap_assign m key nv) key = some nv := by
  induction m with
  | nil => simp [umap_find] at h
  | cons e rest ih =>
    obtain ⟨k, v⟩ := e
    by_cases hk : k = key
    · simp [umap_find, umap_assign, hk]
    · simp only [umap_find, hk, if_false] at h
      simpa [umap_find, umap_assign, hk] using ih h

theorem umap_find_assign_other (m : ClassMap) {key d : String} (nv : List Student)
    (hd : d ≠ key) : umap_find (umap_assign m key nv) d = umap_find m d := by
  induction m with
  | nil => simp [umap_find, umap_assign]
  | cons e rest ih =>
    obtain ⟨k, v⟩ := e
    by_cases hk : k = key
    · have : ¬ key = d := fun e => hd e.symm
      simp [umap_find, umap_assign, hk, this]
    · by_cases hkd : k = d
      · subst hkd
        simp [umap_find, umap_assign, hk]
      · simpa [umap_find, umap_assign, hk, hkd] using ih

theorem umap_assign_self {m : ClassMap} {key : String} {v : List Student}
    (h : umap_find m key = some v) : umap_assign m key v = m := by
  induction m with
  | nil => simp [umap_assign]
  | cons e rest ih =>
    obtain ⟨k, w⟩ := e
    by_cases hk : k = key
    · simp only [umap_find, hk, if_true, Option.some.injEq] at h
      simp [umap_assign, hk, h]
    · simp only [umap_find, hk, if_false] at h
      simp [umap_assign, hk, ih h]

theorem umap_keys_assign (m : ClassMap) (key : String) (nv : List Student) :
    umap_keys (umap_assign m key nv) = umap_keys m := by
  induction m with
  | nil => simp [umap_assign]
  | cons e rest ih =>
    obtain ⟨k, w⟩ := e
    by_cases hk : k = key
    · simp [umap_assign, umap_keys, hk]
    · simp only [umap_keys] at ih
      simp [umap_assign, umap_keys, hk, ih]

theorem umap_find_subscript_other (m : ClassMap) {key d : String} (hd : d ≠ key) :
    umap_find (umap_subscript m key) d = umap_find m d := by
  cases h : umap_find m key with
  | some v => rw [umap_subscript_of_some h]
  | none =>
    rw [umap_subscript_of_none h, umap_find_append]
    have : ¬ key = d := fun e => hd e.symm
    cases umap_find m d <;> simp [this]

theorem umap_find_subscript_same (m : ClassMap) (key : String) :
    umap_find (umap_subscript m key) key = some (umap_deref m key) := by
  cases h : umap_find m key with
  | some v => rw [umap_subscript_of_some h]; simp [umap_deref, h]
  | none =>
    rw [umap_subscript_of_none h, umap_find_append]
    simp [h, umap_deref]


/-! ## Lemmas on the vector algorithms -/

theorem find_if_le (pred : Student → Bool) (v : List Student) : find_if pred v ≤ v.length := by
  induction v with
  | nil => simp [find_if]
  | cons x xs ih =>
    by_cases h : pred x = true
    · simp [find_if, h]
    · simp [find_if, h, ih]

theorem find_if_eq_length_iff (pred : Student → Bool) (v : List Student) :
    find_if pred v = v.length ↔ ∀ x ∈ v, pred x = false := by
  induction v with
  | nil => simp [find_if]
  | cons x xs ih =>
    by_cases h : pred x = true
    · simp [find_if, h]
    · simp [find_if, h, ih]

theorem find_if_take (pred : Student → Bool) (v : List Student) :
    (v.take (find_if pred v)).filter (fun x => !pred x) = v.take (find_if pred v) := by
  induction v with
  | nil => simp [find_if]
  | cons x xs ih =>
    by_cases h : pred x = true
    · simp [find_if, h]
    · simp [find_if, h, ih]

theorem find_if_getElem? (pred : Student → Bool) (v : List Student)
    (h : find_if pred v < v.length) : ∃ x, v[find_if pred v]? = some x ∧ pred x = true := by
  induction v with
  | nil => simp [find_if] at h
  | cons x xs ih =>
    by_cases hx : pred x = true
    · exact ⟨x, by simp [find_if, hx], hx⟩
    · simp only [find_if, hx, Bool.false_eq_true, if_false, List.length_cons,
        Nat.add_lt_add_iff_right] at h
      obtain ⟨y, hy, hp⟩ := ih h
      exact ⟨y, by simpa [find_if, hx] using hy, hp⟩

theorem take_succ_set (l : List Student) (n : Nat) (a : Student) (h : n < l.length) :
    (l.set n a).take (n + 1) = l.take n ++ [a] := by
  induction l generalizing n with
  | nil => simp at h
  | cons x xs ih =>
    cases n with
    | zero => simp
    | succ m =>
      have hm : m < xs.length := by simpa using h
      simp [ih m hm]

/-- Loop invariant of the compaction: the slots below `first` hold the kept
elements of the part already visited, the part not yet visited is untouched. -/
theorem remove_if_loop_spec (pred : Student → Bool) (v : List Student) :
    ∀ (k : Nat) (buf : List Student) (i first : Nat),
      buf.length = v.length → first < i → i + k = v.length →
      buf.take first = (v.take i).filter (fun x => !pred x) →
      buf.drop i = v.drop i →
      (remove_if_loop pred k buf i first).1.length = v.length ∧
      (remove_if_loop pred k buf i first).2 < v.length ∧
      (remove_if_loop pred k buf i first).1.take (remove_if_loop pred k buf i first).2
        = v.filter (fun x => !pred x) := by
  intro k
  induction k with
  | zero =>
    intro buf i first hlen hfi hik htake _
    have hi : i = v.length := by omega
    subst hi
    refine ⟨hlen, hfi, ?_⟩
    simpa [remove_if_loop] using htake
  | succ k ih =>
    intro buf i first hlen hfi hik htake hdrop
    have hi : i < v.length := by omega
    have hbi : buf[i]? = v[i]? := by
      have := congrArg (fun l => l[0]?) hdrop
      simpa [List.getElem?_drop] using this
    have hvi : v[i]? = some (v[i]) := List.getElem?_eq_getElem hi
    have hdrop1 : ∀ b : List Student, b.drop (i + 1) = (b.drop i).drop 1 := by
      intro b; rw [List.drop_drop]
    rw [remove_if_loop, hbi, hvi]
    have htk : v.take (i + 1) = v.take i ++ [v[i]] := by
      rw [List.take_succ, hvi]; rfl
    by_cases hp : pred v[i] = true
    · simp only [hp, Bool.not_true, Bool.false_eq_true, if_false]
      apply ih buf (i + 1) first hlen (by omega) (by omega)
      · rw [htk, List.filter_append, htake]; simp [hp]
      · rw [hdrop1 buf, hdrop, ← hdrop1 v]
    · simp only [hp, Bool.not_false, if_true]
      have hfl : first < buf.length := by omega
      apply ih (buf.set first v[i]) (i + 1) (first + 1) (by simpa using hlen) (by omega)
        (by omega)
      · rw [take_succ_set buf first _ hfl, htk, List.filter_append, htake]; simp [hp]
      · rw [List.drop_set_of_lt _ _ (by omega), hdrop1 buf, hdrop, ← hdrop1 v]

/-- What `std::remove_if` guarantees: the vector keeps its length, the slots
before the returned iterator are the elements not satisfying `pred` in their
original order, and the iterator is `end()` exactly when nothing satisfies
`pred`, in which case the vector is untouched. -/
theorem remove_if_spec (v : List Student) (pred : Student → Bool) :
    (remove_if v pred).1.length = v.length ∧
    (remove_if v pred).1.take (remove_if v pred).2 = v.filter (fun x => !pred x) ∧
    ((remove_if v pred).2 = v.length ↔ ∀ x ∈ v, pred x = false) ∧
    ((remove_if v pred).2 = v.length → (remove_if v pred).1 = v) := by
  by_cases hf : find_if pred v = v.length
  · have hall := (find_if_eq_length_iff pred v).1 hf
    have hfilter : v.filter (fun x => !pred x) = v :=
      List.filter_eq_self.2 (fun a ha => by simp [hall a ha])
    simp only [remove_if, hf, bne_self_eq_false, Bool.false_eq_true, if_false, List.take_length,
      hfilter, true_and, implies_true, and_true, true_iff]
    exact hall
  · have hlt : find_if pred v < v.length :=
      Nat.lt_of_le_of_ne (find_if_le pred v) hf
    obtain ⟨x, hx, hpx⟩ := find_if_getElem? pred v hlt
    have hinv := remove_if_loop_spec pred v (v.length - (find_if pred v + 1)) v
      (find_if pred v + 1) (find_if pred v) rfl (Nat.lt_succ_self _) (by omega)
      (by rw [List.take_succ, hx, List.filter_append, find_if_take]; simp [hpx]) rfl
    have hnall : ¬ ∀ x ∈ v, pred x = false := fun h => hf ((find_if_eq_length_iff pred v).2 h)
    have hrw : remove_if v pred = remove_if_loop pred (v.length - (find_if pred v + 1)) v
        (find_if pred v + 1) (find_if pred v) := by
      simp [remove_if, hf]
    rw [hrw]
    obtain ⟨h1, h2, h3⟩ := hinv
    refine ⟨h1, h3, ?_, ?_⟩
    · constructor
      · intro h; omega
      · intro h; exact absurd h hnall
    · intro h; omega


/-! ## Lemmas on the output lines -/

theorem countR_append (s t : String) : countR (s ++ t) = countR s + countR t := by
  simp [countR, List.count_append]

theorem countR_classNotFoundLine (c : String) : countR (classNotFoundLine c) = countR c := by
  have h : countR " class is not found in the system.\n" = 0 := by decide
  simp [classNotFoundLine, countR_append, h]

theorem countR_studentNotFoundLine (n c : String) :
    countR (studentNotFoundLine n c) = countR n + countR c := by
  have h1 : countR " not found in " = 0 := by decide
  have h2 : countR ".\n" = 0 := by decide
  simp [studentNotFoundLine, countR_append, h1, h2]

theorem countR_removedLine (n c : String) :
    countR (removedLine n c) = countR n + 2 + countR c := by
  have h1 : countR " removed from " = 2 := by decide
  have h2 : countR ".\n" = 0 := by decide
  simp [removedLine, countR_append, h1, h2]

/-- The "removed from" line has two more `r` than the "not found in" line for
the same name and class. -/
theorem removedLine_ne_studentNotFoundLine (n c : String) :
    removedLine n c ≠ studentNotFoundLine n c := by
  intro h
  have := congrArg countR h
  rw [countR_removedLine, countR_studentNotFoundLine] at this
  omega

/-- The "removed from" line has more `r` than the "class is not found" line
for the same class. -/
theorem removedLine_ne_classNotFoundLine (n c : String) :
    removedLine n c ≠ classNotFoundLine c := by
  intro h
  have := congrArg countR h
  rw [countR_removedLine, countR_classNotFoundLine] at this
  omega

/-- The "class is not found" and the "not found in" lines are the same
characters exactly when they agree before the final `".\n"`. -/
theorem classNotFoundLine_eq_studentNotFoundLine_iff (n c : String) :
    classNotFoundLine c = studentNotFoundLine n c ↔
      c ++ " class is not found in the system" = n ++ " not found in " ++ c := by
  have e : classNotFoundLine c = (c ++ " class is not found in the system") ++ ".\n" := by
    rw [String.ext_iff]
    simp [classNotFoundLine]
  rw [e, studentNotFoundLine]
  simp only [String.ext_iff, String.data_append]
  exact List.append_left_inj _

/-! ## Lemmas on the repository methods -/

namespace StudentRepository

theorem RemoveStudent_unknown (self : StudentRepository) (c n : String)
    (h : umap_find self._classes c = none) :
    self.RemoveStudent c n = (self, classNotFoundLine c) := by
  simp [RemoveStudent, h]

theorem RemoveStudent_known (self : StudentRepository) (c n : String) (roster : List Student)
    (h : umap_find self._classes c = some roster) :
    self.RemoveStudent c n =
      if roster.any (fun s => s.Name == n) then
        (⟨umap_assign self._classes c (roster.filter (fun s => !(s.Name == n)))⟩,
          removedLine n c)
      else (self, studentNotFoundLine n c) := by
  have hsub : umap_subscript self._classes c = self._classes := umap_subscript_of_some h
  have hderef : umap_deref self._classes c = roster := by simp [umap_deref, h]
  obtain ⟨hlen, htake, hiff, hsame⟩ := remove_if_spec roster (fun s => s.Name == n)
  simp only [RemoveStudent, h, Option.isNone_some, Bool.false_eq_true, if_false, hsub, hderef]
  by_cases hany : roster.any (fun s => s.Name == n) = true
  · have hne : (remove_if roster (fun s => s.Name == n)).2 ≠ roster.length := by
      intro he
      have hall := hiff.1 he
      obtain ⟨x, hx, hpx⟩ := List.any_eq_true.1 hany
      rw [hall x hx] at hpx
      exact Bool.false_ne_true hpx
    have hne2 : (remove_if roster (fun s => s.Name == n)).2 ≠
        (remove_if roster (fun s => s.Name == n)).1.length := by rw [hlen]; exact hne
    simp only [bne_iff_ne, ne_eq, hne2, not_false_eq_true, if_true, hany, vector_erase,
      List.drop_length, List.append_nil, htake]
  · have hall : ∀ x ∈ roster, (x.Name == n) = false := by
      intro x hx
      cases hp : (x.Name == n) with
      | false => rfl
      | true => exact absurd (List.any_eq_true.2 ⟨x, hx, hp⟩) hany
    have he := hiff.2 hall
    have he2 : (remove_if roster (fun s => s.Name == n)).2 =
        (remove_if roster (fun s => s.Name == n)).1.length := by rw [hlen]; exact he
    simp only [bne_iff_ne, ne_eq, he2, not_true_eq_false, if_false, hany, Bool.false_eq_true,
      hsame he, umap_assign_self h]

theorem GetStudentByNameAndClass_unknown (self : StudentRepository) (c n : String)
    (h : umap_find self._classes c = none) :
    self.GetStudentByNameAndClass c n = (self, none, classNotFoundLine c) := by
  simp [GetStudentByNameAndClass, h]

theorem GetStudentByNameAndClass_known (self : StudentRepository) (c n : String)
    (roster : List Student) (h : umap_find self._classes c = some roster) :
    self.GetStudentByNameAndClass c n =
      match scanByName n roster with
      | some student => (self, some student, "")
      | none => (self, none, studentNotFoundLine n c) := by
  have hsub : umap_subscript self._classes c = self._classes := umap_subscript_of_some h
  have hderef : umap_deref self._classes c = roster := by simp [umap_deref, h]
  simp only [GetStudentByNameAndClass, h, Option.isNone_some, Bool.false_eq_true, if_false,
    hsub, hderef]

theorem GetAllStudentsByClass_unknown (self : StudentRepository) (c : String)
    (h : umap_find self._classes c = none) :
    self.GetAllStudentsByClass c = (self, none, classNotFoundLine c) := by
  simp [GetAllStudentsByClass, h]

theorem GetAllStudentsByClass_known (self : StudentRepository) (c : String)
    (roster : List Student) (h : umap_find self._classes c = some roster) :
    self.GetAllStudentsByClass c = (self, some roster, "") := by
  have hsub : umap_subscript self._classes c = self._classes := umap_subscript_of_some h
  have hderef : umap_deref self._classes c = roster := by simp [umap_deref, h]
  simp only [GetAllStudentsByClass, h, Option.isNone_some, Bool.false_eq_true, if_false,
    hsub, hderef]

theorem find_AddStudent_same (self : StudentRepository) (c : String) (st : Student) :
    umap_find (self.AddStudent c st)._classes c = some (umap_deref self._classes c ++ [st]) := by
  have h := umap_find_subscript_same self._classes c
  simp only [AddStudent]
  rw [umap_find_assign_same _ (by simp [h])]
  simp [umap_deref, h]

theorem find_AddStudent_other (self : StudentRepository) {c d : String} (st : Student)
    (hd : d ≠ c) :
    umap_find (self.AddStudent c st)._classes d = umap_find self._classes d := by
  simp only [AddStudent]
  rw [umap_find_assign_other _ _ hd, umap_find_subscript_other _ hd]

theorem find_RemoveStudent_same (self : StudentRepository) (c n : String)
    (roster : List Student) (h : umap_find self._classes c = some roster) :
    umap_find (self.RemoveStudent c n).1._classes c =
      some (roster.filter (fun s => !(s.Name == n))) := by
  rw [RemoveStudent_known self c n roster h]
  by_cases hany : roster.any (fun s => s.Name == n) = true
  · simp only [hany, if_true]
    exact umap_find_assign_same _ (by simp [h])
  · simp only [hany, Bool.false_eq_true, if_false, h]
    have hall : ∀ x ∈ roster, (!(x.Name == n)) = true := by
      intro x hx
      cases hp : (x.Name == n) with
      | false => rfl
      | true => exact absurd (List.any_eq_true.2 ⟨x, hx, hp⟩) hany
    rw [List.filter_eq_self.2 hall]

theorem find_RemoveStudent_other (self : StudentRepository) {c d : String} (n : String)
    (hd : d ≠ c) :
    umap_find (self.RemoveStudent c n).1._classes d = umap_find self._classes d := by
  cases h : umap_find self._classes c with
  | none => rw [RemoveStudent_unknown self c n h]
  | some roster =>
    rw [RemoveStudent_known self c n roster h]
    by_cases hany : roster.any (fun s => s.Name == n) = true
    · simp only [hany, if_true]
      exact umap_find_assign_other _ _ hd
    · simp only [hany, Bool.false_eq_true, if_false]

theorem keys_RemoveStudent (self : StudentRepository) (c n : String) :
    umap_keys (self.RemoveStudent c n).1._classes = umap_keys self._classes := by
  cases h : umap_find self._classes c with
  | none => rw [RemoveStudent_unknown self c n h]
  | some roster =>
    rw [RemoveStudent_known self c n roster h]
    by_cases hany : roster.any (fun s => s.Name == n) = true
    · simp only [hany, if_true]
      exact umap_keys_assign _ _ _
    · simp only [hany, Bool.false_eq_true, if_false]

theorem keys_AddStudent (self : StudentRepository) (c : String) (st : Student) :
    umap_keys (self.AddStudent c st)._classes =
      if c ∈ umap_keys self._classes then umap_keys self._classes
      else umap_keys self._classes ++ [c] := by
  simp only [AddStudent]
  rw [umap_keys_assign]
  cases h : umap_find self._classes c with
  | none =>
    have hn : ¬ c ∈ umap_keys self._classes := by
      rw [← umap_find_isSome_iff_mem_keys]; simp [h]
    rw [umap_subscript_of_none h, if_neg hn]
    simp [umap_keys]
  | some v =>
    have hn : c ∈ umap_keys self._classes := by
      rw [← umap_find_isSome_iff_mem_keys]; simp [h]
    rw [umap_subscript_of_some h, if_pos hn]

end StudentRepository


/-! ## Lemmas on call sequences and on the scan -/

namespace StudentRepository

theorem find_addAll_after_add (c : String) (students : List Student) :
    ∀ (self : StudentRepository) (s : Student),
      umap_find (addAll (self.AddStudent c s) c students)._classes c =
        some (umap_deref self._classes c ++ s :: students) := by
  induction students with
  | nil =>
    intro self s
    simpa [addAll] using find_AddStudent_same self c s
  | cons x xs ih =>
    intro self s
    have h := ih (self.AddStudent c s) x
    have hd : umap_deref (self.AddStudent c s)._classes c = umap_deref self._classes c ++ [s] := by
      simp [umap_deref, find_AddStudent_same]
    rw [hd] at h
    simpa [addAll] using h

theorem mem_foldl_filter (names : List String) :
    ∀ (roster : List Student) (x : Student),
      x ∈ names.foldl (fun r n => r.filter (fun s => !(s.Name == n))) roster ↔
        x ∈ roster ∧ x.Name ∉ names := by
  induction names with
  | nil => intro roster x; simp
  | cons n ns ih =>
    intro roster x
    rw [List.foldl_cons, ih]
    simp only [List.mem_filter, List.mem_cons, not_or, Bool.not_eq_true', beq_eq_false_iff_ne,
      ne_eq]
    tauto

theorem find_removeAll (c : String) (names : List String) :
    ∀ (self : StudentRepository) (roster : List Student),
      umap_find self._classes c = some roster →
      umap_find (removeAll self c names)._classes c =
        some (names.foldl (fun r n => r.filter (fun s => !(s.Name == n))) roster) := by
  induction names with
  | nil => intro self roster h; simpa [removeAll] using h
  | cons n ns ih =>
    intro self roster h
    have h1 := find_RemoveStudent_same self c n roster h
    have h2 := ih (self.RemoveStudent c n).1 _ h1
    simpa [removeAll] using h2

theorem scanByName_eq_none_iff (n : String) (roster : List Student) :
    scanByName n roster = none ↔ ∀ st ∈ roster, st.Name ≠ n := by
  induction roster with
  | nil => simp [scanByName]
  | cons x xs ih =>
    by_cases h : x.Name = n
    · simp [scanByName, h]
    · simp [scanByName, h, ih]

theorem scanByName_eq_some_iff (n : String) (roster : List Student) (st : Student) :
    scanByName n roster = some st ↔
      ∃ pre post, roster = pre ++ st :: post ∧ st.Name = n ∧ ∀ x ∈ pre, x.Name ≠ n := by
  induction roster with
  | nil => simp [scanByName]
  | cons x xs ih =>
    by_cases h : x.Name = n
    · simp only [scanByName, h, beq_self_eq_true, if_true, Option.some.injEq]
      constructor
      · intro hx
        subst hx
        exact ⟨[], xs, rfl, h, by simp⟩
      · rintro ⟨pre, post, hpre, hst, hall⟩
        cases pre with
        | nil => simp at hpre; exact hpre.1
        | cons p ps =>
          simp at hpre
          exact absurd (hpre.1 ▸ h) (hall p (by simp))
    · have hb : (x.Name == n) = false := by simpa using h
      simp only [scanByName, hb, Bool.false_eq_true, if_false, ih]
      constructor
      · rintro ⟨pre, post, hpre, hst, hall⟩
        refine ⟨x :: pre, post, by simp [hpre], hst, ?_⟩
        intro y hy
        rcases List.mem_cons.1 hy with rfl | hy
        · exact h
        · exact hall y hy
      · rintro ⟨pre, post, hpre, hst, hall⟩
        cases pre with
        | nil =>
          simp at hpre
          exact absurd (hpre.1 ▸ hst) h
        | cons p ps =>
          simp at hpre
          exact ⟨ps, post, hpre.2, hst, fun y hy => hall y (by simp [hy])⟩

end StudentRepository


/-! ## The properties of the specification -/

open StudentRepository

/-- C1: starting from a freshly created repository, after the calls
`AddStudent(c, s1)`, ..., `AddStudent(c, sk)` with `k ≥ 1`,
`GetAllStudentsByClass(c)` returns a non-null roster that is exactly
`[s1, ..., sk]` (same students, same length, call order); it prints nothing and
leaves the repository as it is. -/
theorem getAll_after_addAll (c : String) (students : List Student) (h : students ≠ []) :
    (addAll empty c students).GetAllStudentsByClass c =
      (addAll empty c students, some students, "") := by
  cases students with
  | nil => exact absurd rfl h
  | cons s rest =>
    have hfind : umap_find (addAll empty c (s :: rest))._classes c = some (s :: rest) := by
      have := find_addAll_after_add c rest empty s
      simpa [addAll, empty, umap_deref, umap_find] using this
    exact GetAllStudentsByClass_known _ c _ hfind

/-- C1, the scenario of the specification: `Add("A1","Alice",10);
Add("A1","Bob",11); Add("A1","Alice",12)` gives
`[("Alice",10),("Bob",11),("Alice",12)]`. -/
theorem getAll_after_addAll_witness :
    ([⟨"Alice", 10⟩, ⟨"Bob", 11⟩, ⟨"Alice", 12⟩] : List Student) ≠ [] ∧
    (addAll empty "A1" [⟨"Alice", 10⟩, ⟨"Bob", 11⟩, ⟨"Alice", 12⟩]).GetAllStudentsByClass "A1" =
      (addAll empty "A1" [⟨"Alice", 10⟩, ⟨"Bob", 11⟩, ⟨"Alice", 12⟩],
        some [⟨"Alice", 10⟩, ⟨"Bob", 11⟩, ⟨"Alice", 12⟩], "") :=
  ⟨by decide, getAll_after_addAll "A1" [⟨"Alice", 10⟩, ⟨"Bob", 11⟩, ⟨"Alice", 12⟩] (by decide)⟩

/-- C2: for a known class `c` with roster `roster`, after `RemoveStudent(c, n)`
the roster of `c` is `roster` with every student named `n` filtered out: every
match is removed, no other student is removed, and the survivors keep their
relative order. -/
theorem removeStudent_roster_filter (self : StudentRepository) (c n : String)
    (roster : List Student) (h : umap_find self._classes c = some roster) :
    umap_find (self.RemoveStudent c n).1._classes c =
        some (roster.filter (fun s => s.Name != n)) ∧
    ((self.RemoveStudent c n).1.GetAllStudentsByClass c).2.1 =
        some (roster.filter (fun s => s.Name != n)) ∧
    (∀ s, s ∈ roster.filter (fun s => s.Name != n) ↔ s ∈ roster ∧ s.Name ≠ n) ∧
    (roster.filter (fun s => s.Name != n)).Sublist roster := by
  have hf : umap_find (self.RemoveStudent c n).1._classes c =
      some (roster.filter (fun s => s.Name != n)) :=
    find_RemoveStudent_same self c n roster h
  refine ⟨hf, ?_, ?_, List.filter_sublist roster⟩
  · rw [GetAllStudentsByClass_known _ c _ hf]
  · intro s
    simp [List.mem_filter]

/-- C2, the scenario of the specification: on
`[("Alice",10),("Bob",11),("Alice",12)]`, `RemoveStudent("A1","Alice")` leaves
`[("Bob",11)]`. -/
theorem removeStudent_roster_filter_witness :
    umap_find repoA1._classes "A1" = some aliceBobAlice ∧
    umap_find (repoA1.RemoveStudent "A1" "Alice").1._classes "A1" = some [⟨"Bob", 11⟩] :=
  ⟨by decide, (removeStudent_roster_filter repoA1 "A1" "Alice" aliceBobAlice (by decide)).1⟩

/-- C3: for a class `c` that has no entry, `RemoveStudent(c, n)` prints the
"class is not found" line and leaves the whole repository unchanged: same
labels, same rosters, and no entry for `c` is created. -/
theorem removeStudent_unknown_class (self : StudentRepository) (c n : String)
    (h : umap_find self._classes c = none) :
    self.RemoveStudent c n = (self, classNotFoundLine c) ∧
    umap_keys (self.RemoveStudent c n).1._classes = umap_keys self._classes ∧
    (∀ d, umap_find (self.RemoveStudent c n).1._classes d = umap_find self._classes d) ∧
    umap_find (self.RemoveStudent c n).1._classes c = none := by
  have hr := RemoveStudent_unknown self c n h
  rw [hr]
  exact ⟨rfl, rfl, fun _ => rfl, h⟩

/-- C3 on the repository holding class `A1`, for the unknown label `Z9`. -/
theorem removeStudent_unknown_class_witness :
    umap_find repoA1._classes "Z9" = none ∧
    repoA1.RemoveStudent "Z9" "Anyone" = (repoA1, classNotFoundLine "Z9") :=
  ⟨by decide, (removeStudent_unknown_class repoA1 "Z9" "Anyone" (by decide)).1⟩

/-- C4, as amended: for a known class `c`, `RemoveStudent(c, n)` prints the
"not found in" line exactly when no student of the roster is named `n`, and
then the repository is unchanged; it prints the "removed from" line exactly
when some student is named `n`.  A class without an entry gives the "class is
not found" line.  The "removed from" line differs from both other lines; the
"class is not found" and "not found in" lines are the same characters exactly
when `c ++ " class is not found in the system" = n ++ " not found in " ++ c`,
and only then does a call on a known class print the "class is not found"
line. -/
theorem removeStudent_outcome (self : StudentRepository) (c n : String) :
    (∀ roster, umap_find self._classes c = some roster →
      ((self.RemoveStudent c n).2 = studentNotFoundLine n c ↔ ∀ s ∈ roster, s.Name ≠ n) ∧
      ((∀ s ∈ roster, s.Name ≠ n) → (self.RemoveStudent c n).1 = self) ∧
      ((self.RemoveStudent c n).2 = removedLine n c ↔ ∃ s ∈ roster, s.Name = n)) ∧
    ((self.RemoveStudent c n).2 = classNotFoundLine c ↔
      umap_find self._classes c = none ∨
        ((self.RemoveStudent c n).2 = studentNotFoundLine n c ∧
          c ++ " class is not found in the system" = n ++ " not found in " ++ c)) ∧
    (classNotFoundLine c = studentNotFoundLine n c ↔
      c ++ " class is not found in the system" = n ++ " not found in " ++ c) ∧
    classNotFoundLine c ≠ removedLine n c ∧
    studentNotFoundLine n c ≠ removedLine n c := by
  refine ⟨?_, ?_, classNotFoundLine_eq_studentNotFoundLine_iff n c,
    fun e => removedLine_ne_classNotFoundLine n c e.symm,
    fun e => removedLine_ne_studentNotFoundLine n c e.symm⟩
  · intro roster h
    have hk := RemoveStudent_known self c n roster h
    by_cases hany : roster.any (fun s => s.Name == n) = true
    · have hex : ∃ s ∈ roster, s.Name = n := by
        obtain ⟨x, hx, hp⟩ := List.any_eq_true.1 hany
        exact ⟨x, hx, by simpa using hp⟩
      have hnall : ¬ ∀ s ∈ roster, s.Name ≠ n := by
        intro hall
        obtain ⟨x, hx, hp⟩ := hex
        exact hall x hx hp
      rw [hk]
      simp only [hany, if_true]
      refine ⟨⟨fun e => absurd e (removedLine_ne_studentNotFoundLine n c), fun e => absurd e hnall⟩,
        fun e => absurd e hnall, ⟨fun _ => hex, fun _ => trivial⟩⟩
    · have hall : ∀ s ∈ roster, s.Name ≠ n := by
        intro s hs he
        exact hany (List.any_eq_true.2 ⟨s, hs, by simpa using he⟩)
      have hnex : ¬ ∃ s ∈ roster, s.Name = n := by
        rintro ⟨x, hx, hp⟩
        exact hall x hx hp
      rw [hk]
      simp only [hany, Bool.false_eq_true, if_false]
      refine ⟨⟨fun _ => hall, fun _ => trivial⟩, fun _ => trivial,
        ⟨fun e => absurd e.symm (removedLine_ne_studentNotFoundLine n c), fun e => absurd e hnex⟩⟩
  · cases h : umap_find self._classes c with
    | none =>
      rw [RemoveStudent_unknown self c n h]
      exact ⟨fun _ => Or.inl rfl, fun _ => rfl⟩
    | some roster =>
      rw [RemoveStudent_known self c n roster h]
      by_cases hany : roster.any (fun s => s.Name == n) = true
      · simp only [hany, if_true]
        constructor
        · intro e; exact absurd e (removedLine_ne_classNotFoundLine n c)
        · rintro (e | ⟨e, _⟩)
          · exact Option.noConfusion e
          · exact absurd e (removedLine_ne_studentNotFoundLine n c)
      · simp only [hany, Bool.false_eq_true, if_false]
        constructor
        · intro e
          exact Or.inr ⟨trivial, (classNotFoundLine_eq_studentNotFoundLine_iff n c).1 e.symm⟩
        · rintro (e | ⟨_, e⟩)
          · exact Option.noConfusion e
          · exact ((classNotFoundLine_eq_studentNotFoundLine_iff n c).2 e).symm

/-- C4 on the roster `[("Alice",10),("Bob",11),("Alice",12)]`: removing
"Alice" prints the "removed from" line, removing "Zed" prints the "not found
in" line and changes nothing. -/
theorem removeStudent_outcome_witness :
    (repoA1.RemoveStudent "A1" "Alice").2 = removedLine "Alice" "A1" ∧
    (repoA1.RemoveStudent "A1" "Zed").2 = studentNotFoundLine "Zed" "A1" ∧
    (repoA1.RemoveStudent "A1" "Zed").1 = repoA1 :=
  ⟨((removeStudent_outcome repoA1 "A1" "Alice").1 aliceBobAlice (by decide)).2.2.2
      ⟨⟨"Alice", 10⟩, by decide, rfl⟩,
    ((removeStudent_outcome repoA1 "A1" "Zed").1 aliceBobAlice (by decide)).1.2 (by decide),
    ((removeStudent_outcome repoA1 "A1" "Zed").1 aliceBobAlice (by decide)).2.1 (by decide)⟩

/-- C4 as stated fails: the class `the system` is known, with roster
`[("Bob",11)]`, and `RemoveStudent("the system", "the system class is")` finds
no match, yet what it prints is at once the "not found in" line and the "class
is not found" line, the very characters the same call prints on a fresh
repository where the class is unknown.  The outcomes for "class unknown" and
"class known, no match" are not exclusive. -/
theorem removeStudent_outcome_counterexample :
    umap_find repoSystem._classes "the system" = some [⟨"Bob", 11⟩] ∧
    umap_find StudentRepository.empty._classes "the system" = none ∧
    (repoSystem.RemoveStudent "the system" "the system class is").2 =
      studentNotFoundLine "the system class is" "the system" ∧
    (repoSystem.RemoveStudent "the system" "the system class is").2 =
      classNotFoundLine "the system" ∧
    (repoSystem.RemoveStudent "the system" "the system class is").2 =
      (StudentRepository.empty.RemoveStudent "the system" "the system class is").2 ∧
    (repoSystem.RemoveStudent "the system" "the system class is").2 =
      "the system class is not found in the system.\n" := by
  decide

/-- C5: for a known class `c`, `GetStudentByNameAndClass(c, n)` returns the
first student in stored order whose name is `n` (every student stored before
it has another name), printing nothing; it returns null and prints the "not
found in" line exactly when no student of the roster is named `n`.  The
repository is left as it is. -/
theorem getStudent_first_match (self : StudentRepository) (c n : String)
    (roster : List Student) (h : umap_find self._classes c = some roster) :
    (∀ st, (self.GetStudentByNameAndClass c n).2.1 = some st ↔
      ∃ pre post, roster = pre ++ st :: post ∧ st.Name = n ∧ ∀ x ∈ pre, x.Name ≠ n) ∧
    (((self.GetStudentByNameAndClass c n).2.1 = none ∧
        (self.GetStudentByNameAndClass c n).2.2 = studentNotFoundLine n c) ↔
      ∀ s ∈ roster, s.Name ≠ n) ∧
    ((∃ s ∈ roster, s.Name = n) → (self.GetStudentByNameAndClass c n).2.2 = "") ∧
    (self.GetStudentByNameAndClass c n).1 = self := by
  have hk := GetStudentByNameAndClass_known self c n roster h
  cases hs : scanByName n roster with
  | none =>
    have hall := (scanByName_eq_none_iff n roster).1 hs
    rw [hs] at hk
    rw [hk]
    refine ⟨?_, ⟨fun _ => hall, fun _ => ⟨rfl, rfl⟩⟩, ?_, rfl⟩
    · intro st
      rw [← scanByName_eq_some_iff, hs]
    · rintro ⟨x, hx, hp⟩
      exact absurd hp (hall x hx)
  | some found =>
    have hnall : ¬ ∀ s ∈ roster, s.Name ≠ n := by
      intro hall
      have := (scanByName_eq_none_iff n roster).2 hall
      rw [hs] at this
      exact Option.noConfusion this
    rw [hs] at hk
    rw [hk]
    refine ⟨?_, ⟨fun e => Option.noConfusion e.1, fun e => absurd e hnall⟩, fun _ => rfl, rfl⟩
    intro st
    rw [← scanByName_eq_some_iff, hs]

/-- C5, the scenario of the specification: on
`A1 = [("Alice",10),("Bob",11),("Alice",12)]`, looking up "Alice" yields
`("Alice",10)`. -/
theorem getStudent_first_match_witness :
    umap_find repoA1._classes "A1" = some aliceBobAlice ∧
    (repoA1.GetStudentByNameAndClass "A1" "Alice").2.1 = some ⟨"Alice", 10⟩ :=
  ⟨by decide,
    ((getStudent_first_match repoA1 "A1" "Alice" aliceBobAlice (by decide)).1 ⟨"Alice", 10⟩).2
      ⟨[], [⟨"Bob", 11⟩, ⟨"Alice", 12⟩], rfl, rfl, by simp⟩⟩

/-- C6, as amended: for a class `c` that has no entry,
`GetStudentByNameAndClass(c, n)` prints the "class is not found" line, returns
null and changes nothing.  For a known class without a match it returns null
with the "not found in" line, and the two outcomes differ exactly when
`c ++ " class is not found in the system" ≠ n ++ " not found in " ++ c`. -/
theorem getStudent_unknown_class (self : StudentRepository) (c n : String)
    (h : umap_find self._classes c = none) :
    self.GetStudentByNameAndClass c n = (self, none, classNotFoundLine c) ∧
    (∀ (other : StudentRepository) (roster : List Student),
      umap_find other._classes c = some roster → (∀ s ∈ roster, s.Name ≠ n) →
        (other.GetStudentByNameAndClass c n).2 = (none, studentNotFoundLine n c) ∧
        ((self.GetStudentByNameAndClass c n).2 ≠ (other.GetStudentByNameAndClass c n).2 ↔
          c ++ " class is not found in the system" ≠ n ++ " not found in " ++ c)) := by
  have hu := GetStudentByNameAndClass_unknown self c n h
  refine ⟨hu, ?_⟩
  intro other roster ho hall
  have hk := GetStudentByNameAndClass_known other c n roster ho
  rw [(scanByName_eq_none_iff n roster).2 hall] at hk
  rw [hu, hk]
  have hiff := classNotFoundLine_eq_studentNotFoundLine_iff n c
  refine ⟨rfl, ?_⟩
  constructor
  · intro hne e
    exact hne (by rw [hiff.2 e])
  · intro hne e
    exact hne (hiff.1 (Prod.mk.inj e).2)

/-- C6, the scenario of the specification:
`GetStudentByNameAndClass("Z9","Anyone")` on a repository with no `Z9` class
gives null with the "class is not found" line, which differs from the outcome
on a repository where `Z9` holds only Bob. -/
theorem getStudent_unknown_class_witness :
    umap_find repoA1._classes "Z9" = none ∧
    repoA1.GetStudentByNameAndClass "Z9" "Anyone" = (repoA1, none, classNotFoundLine "Z9") ∧
    (repoA1.GetStudentByNameAndClass "Z9" "Anyone").2 ≠
      (repoZ9.GetStudentByNameAndClass "Z9" "Anyone").2 :=
  ⟨by decide, (getStudent_unknown_class repoA1 "Z9" "Anyone" (by decide)).1,
    ((getStudent_unknown_class repoA1 "Z9" "Anyone" (by decide)).2 repoZ9 [⟨"Bob", 11⟩]
      (by decide) (by decide)).2.2 (by decide)⟩

/-- C6 as stated fails: `the system` has no entry in a fresh repository and is
known, with roster `[("Bob",11)]` and no student named `the system class is`,
in the other; `GetStudentByNameAndClass("the system", "the system class is")`
returns null and prints the same characters on both, so the "class not found"
outcome is not distinct from the "student not found" outcome there. -/
theorem getStudent_unknown_class_counterexample :
    umap_find StudentRepository.empty._classes "the system" = none ∧
    umap_find repoSystem._classes "the system" = some [⟨"Bob", 11⟩] ∧
    (StudentRepository.empty.GetStudentByNameAndClass "the system" "the system class is").2 =
      (none, classNotFoundLine "the system") ∧
    (repoSystem.GetStudentByNameAndClass "the system" "the system class is").2 =
      (none, studentNotFoundLine "the system class is" "the system") ∧
    (StudentRepository.empty.GetStudentByNameAndClass "the system" "the system class is").2 =
      (repoSystem.GetStudentByNameAndClass "the system" "the system class is").2 := by
  decide

/-- C7: a class entry persists when emptied.  For a known class `c`, after
`RemoveStudent` calls whose names cover every student of the roster,
`GetAllStudentsByClass(c)` returns a non-null roster that is the empty list
and prints nothing, whereas for a label without an entry (such as any label
on a fresh repository) it returns null with the "class is not found" line. -/
theorem emptied_class_still_found (self : StudentRepository) (c : String)
    (roster : List Student) (names : List String)
    (h : umap_find self._classes c = some roster) (hcover : ∀ s ∈ roster, s.Name ∈ names) :
    ((removeAll self c names).GetAllStudentsByClass c).2 = (some [], "") ∧
    (∀ other : StudentRepository, umap_find other._classes c = none →
      (other.GetAllStudentsByClass c).2 = (none, classNotFoundLine c)) ∧
    (empty.GetAllStudentsByClass c).2 = (none, classNotFoundLine c) ∧
    ((removeAll self c names).GetAllStudentsByClass c).2 ≠ (empty.GetAllStudentsByClass c).2 := by
  have hf := find_removeAll c names self roster h
  have hnil : names.foldl (fun r n => r.filter (fun s => !(s.Name == n))) roster = [] := by
    apply List.eq_nil_iff_forall_not_mem.2
    intro x hx
    have := (mem_foldl_filter names roster x).1 hx
    exact this.2 (hcover x this.1)
  rw [hnil] at hf
  have hg := GetAllStudentsByClass_known _ c _ hf
  have he : empty.GetAllStudentsByClass c = (empty, none, classNotFoundLine c) :=
    GetAllStudentsByClass_unknown empty c rfl
  rw [hg, he]
  refine ⟨rfl, ?_, rfl, ?_⟩
  · intro other ho
    rw [GetAllStudentsByClass_unknown other c ho]
  · intro e
    exact Option.noConfusion (Prod.mk.inj e).1

/-- C7, the scenario of the specification: `AddStudent("B2","Cara",9);
RemoveStudent("B2","Cara"); GetAllStudentsByClass("B2")` finds the empty
roster. -/
theorem emptied_class_still_found_witness :
    umap_find repoB2._classes "B2" = some [⟨"Cara", 9⟩] ∧
    ((repoB2.RemoveStudent "B2" "Cara").1.GetAllStudentsByClass "B2").2 = (some [], "") :=
  ⟨by decide,
    (emptied_class_still_found repoB2 "B2" [⟨"Cara", 9⟩] ["Cara"] (by decide) (by decide)).1⟩

/-- C8: the two queries never change the repository, whether the class is
known or not; in particular a lookup on a label without an entry creates no
entry, so a following `GetAllStudentsByClass` or `RemoveStudent` on that label
still prints the "class is not found" line. -/
theorem queries_leave_repository_unchanged (self : StudentRepository) (c n : String) :
    (self.GetStudentByNameAndClass c n).1 = self ∧
    (self.GetAllStudentsByClass c).1 = self ∧
    (umap_find self._classes c = none →
      umap_find (self.GetStudentByNameAndClass c n).1._classes c = none ∧
      umap_find (self.GetAllStudentsByClass c).1._classes c = none ∧
      ((self.GetStudentByNameAndClass c n).1.GetAllStudentsByClass c).2 =
        (none, classNotFoundLine c) ∧
      ((self.GetStudentByNameAndClass c n).1.RemoveStudent c n).2 = classNotFoundLine c ∧
      ((self.GetAllStudentsByClass c).1.GetAllStudentsByClass c).2 =
        (none, classNotFoundLine c) ∧
      ((self.GetAllStudentsByClass c).1.RemoveStudent c n).2 = classNotFoundLine c) := by
  have h1 : (self.GetStudentByNameAndClass c n).1 = self := by
    cases h : umap_find self._classes c with
    | none => rw [GetStudentByNameAndClass_unknown self c n h]
    | some roster =>
      rw [GetStudentByNameAndClass_known self c n roster h]
      cases scanByName n roster <;> rfl
  have h2 : (self.GetAllStudentsByClass c).1 = self := by
    cases h : umap_find self._classes c with
    | none => rw [GetAllStudentsByClass_unknown self c h]
    | some roster => rw [GetAllStudentsByClass_known self c roster h]
  refine ⟨h1, h2, ?_⟩
  intro h
  rw [h1, h2, GetAllStudentsByClass_unknown self c h, RemoveStudent_unknown self c n h]
  exact ⟨h, h, rfl, rfl, rfl, rfl⟩

/-- C8 on the repository holding class `A1`: looking up the unknown label
`Z9` changes nothing, and `Z9` is still unknown afterwards. -/
theorem queries_leave_repository_unchanged_witness :
    (repoA1.GetStudentByNameAndClass "Z9" "Anyone").1 = repoA1 ∧
    ((repoA1.GetStudentByNameAndClass "Z9" "Anyone").1.RemoveStudent "Z9" "Anyone").2 =
      classNotFoundLine "Z9" :=
  ⟨(queries_leave_repository_unchanged repoA1 "Z9" "Anyone").1,
    ((queries_leave_repository_unchanged repoA1 "Z9" "Anyone").2.2 (by decide)).2.2.2.1⟩

/-- C9: each `StudentService` method, and each `StudentController` method
layered on it, gives exactly the result, the output and the resulting
repository of the `StudentRepository` method it forwards to. -/
theorem service_and_controller_forward (repository : StudentRepository) (c n : String)
    (student : Student) :
    StudentService.AddStudentToClass ⟨repository⟩ c student = ⟨repository.AddStudent c student⟩ ∧
    StudentService.RemoveStudentFromClass ⟨repository⟩ c n =
      (⟨(repository.RemoveStudent c n).1⟩, (repository.RemoveStudent c n).2) ∧
    StudentService.ViewStudentDetails ⟨repository⟩ c n =
      (⟨(repository.GetStudentByNameAndClass c n).1⟩,
        (repository.GetStudentByNameAndClass c n).2) ∧
    StudentService.ViewStudentsInClass ⟨repository⟩ c =
      (⟨(repository.GetAllStudentsByClass c).1⟩, (repository.GetAllStudentsByClass c).2) ∧
    (wire repository).AddStudent c student = wire (repository.AddStudent c student) ∧
    (wire repository).RemoveStudent c n =
      (wire (repository.RemoveStudent c n).1, (repository.RemoveStudent c n).2) ∧
    (wire repository).GetStudentDetails c n =
      (wire (repository.GetStudentByNameAndClass c n).1,
        (repository.GetStudentByNameAndClass c n).2) ∧
    (wire repository).GetStudentsByClass c =
      (wire (repository.GetAllStudentsByClass c).1, (repository.GetAllStudentsByClass c).2) :=
  ⟨rfl, rfl, rfl, rfl, rfl, rfl, rfl, rfl⟩

/-- C10: mutations are local to the named class.  For `d ≠ c`, neither
`AddStudent(c, s)` nor `RemoveStudent(c, n)` changes the roster of `d` or
whether `d` has an entry; the labels after `AddStudent(c, s)` are the old
labels together with `c`, and `RemoveStudent` never changes the labels. -/
theorem mutations_local_to_class (self : StudentRepository) (c d n : String) (s : Student)
    (hd : d ≠ c) :
    umap_find (self.AddStudent c s)._classes d = umap_find self._classes d ∧
    umap_find (self.RemoveStudent c n).1._classes d = umap_find self._classes d ∧
    (∀ k, k ∈ umap_keys (self.AddStudent c s)._classes ↔ k ∈ umap_keys self._classes ∨ k = c) ∧
    umap_keys (self.RemoveStudent c n).1._classes = umap_keys self._classes := by
  refine ⟨find_AddStudent_other self s hd, find_RemoveStudent_other self n hd, ?_,
    keys_RemoveStudent self c n⟩
  intro k
  rw [keys_AddStudent]
  by_cases hc : c ∈ umap_keys self._classes
  · rw [if_pos hc]
    constructor
    · exact Or.inl
    · rintro (hk | hk)
      · exact hk
      · exact hk ▸ hc
  · rw [if_neg hc]
    simp

/-- C10 on the repository holding class `A1`: adding to or removing from `A1`
leaves the label `B2` without an entry. -/
theorem mutations_local_to_class_witness :
    "B2" ≠ "A1" ∧
    umap_find (repoA1.AddStudent "A1" ⟨"Dan", 13⟩)._classes "B2" = umap_find repoA1._classes "B2" ∧
    umap_find (repoA1.RemoveStudent "A1" "Alice").1._classes "B2" =
      umap_find repoA1._classes "B2" :=
  ⟨by decide,
    (mutations_local_to_class repoA1 "A1" "B2" "Alice" ⟨"Dan", 13⟩ (by decide)).1,
    (mutations_local_to_class repoA1 "A1" "B2" "Alice" ⟨"Dan", 13⟩ (by decide)).2.1⟩

end Roster
